import Mathlib

/-!
# Verification of the Julia-set GPU pipeline launch description

Shallow embedding of
`src/rclcpp/type_adaptation/accelerated_pipeline/julia_set/launch/juliaset-pipeline-launch.py`.

The Python file builds, at launch time, two `ComposableNodeContainer`
descriptions (a "pipeline" chain of Julia-set stages and a single fused
"composite" stage) from launch-configuration inputs.  The embedding below
mirrors the Python definitions one by one:

* Python dicts used as parameter maps are embedded as association lists
  `List (String × PVal)`, flattened in insertion order (which preserves the
  duplicate-key structure of the `[{...}] + JULIASET_PARAMS` pattern);
* Python float literals are embedded as exact rationals (`PVal.pfloat`);
  no floating-point arithmetic is performed anywhere in the file, every
  float is a literal carried around verbatim, so this is faithful;
* `platform.machine()` is an environment input and becomes a field of the
  embedded launch `Context`;
* the `%d` decimal formatting of stage indices is embedded by `natDecimal`;
* `RESOLUTIONS[resolution]`, the only fallible operation (Python `KeyError`
  on an unknown key), is embedded by `List.lookup`, and `launch_setup`
  consequently returns an `Option`.
-/

namespace JuliaSetLaunch

/-- A parameter value: Python bool, int, float (kept as an exact rational,
since the source only ever stores literals) or string. -/
inductive PVal where
  | pbool (b : Bool)
  | pint (n : ℤ)
  | pfloat (q : ℚ)
  | pstr (s : String)
deriving DecidableEq

/-- The `RESOLUTIONS` table of the source: resolution key to (width, height). -/
def RESOLUTIONS : List (String × (ℕ × ℕ)) :=
  [("16K", (15360, 8640)),
   ("8K", (7680, 4320)),
   ("4K", (3840, 2160)),
   ("1080p", (1920, 1080)),
   ("720p", (1280, 720)),
   ("480p", (852, 480))]

/-- `IMAGE_HZ = 100.0` of the source. -/
def IMAGE_HZ : ℚ := 100.0

/-- `MAX_ITERATION = 50` of the source. -/
def MAX_ITERATION : ℕ := 50

/-- `int(IMAGE_HZ)`: Python `int()` truncates toward zero; on the exact
rational this is `num / den` with Lean `Int` division (the value is the
positive integer 100, where all truncating divisions agree). -/
def IMAGE_HZ_INT : ℤ := IMAGE_HZ.num / (IMAGE_HZ.den : ℤ)

/-- `JULIASET_PARAMS` of the source: the shared Julia-set numeric parameters,
a list of single-key dicts flattened to an association list. -/
def JULIASET_PARAMS : List (String × PVal) :=
  [("min_x_range", PVal.pfloat (-2.5)),
   ("max_x_range", PVal.pfloat 2.5),
   ("min_y_range", PVal.pfloat (-1.5)),
   ("max_y_range", PVal.pfloat 1.5),
   ("start_x", PVal.pfloat 0.7885),
   ("start_y", PVal.pfloat 0.7885),
   ("boundary_radius", PVal.pfloat 25.0),
   ("max_iterations", PVal.pfloat (MAX_ITERATION : ℚ))]

/-- Decimal rendering of a natural number, the embedding of Python `'%d' % i`
for the nonnegative stage indices used by the source. -/
def natDecimal (n : ℕ) : String :=
  if n = 0 then "0" else String.mk (((Nat.digits 10 n).reverse).map Nat.digitChar)

/-- A ROS composable-node description, the embedding of
`launch_ros.descriptions.ComposableNode` as instantiated by the source
(package, plugin, name, parameters, remappings, extra arguments). -/
structure ComposableNode where
  package : String
  plugin : String
  name : String
  parameters : List (String × PVal)
  remappings : List (String × String)
  extra_arguments : List (String × PVal)
deriving DecidableEq

/-- The activation condition `LaunchConfigurationEquals(var, expected)`. -/
structure LaunchConfigurationEquals where
  varName : String
  expected : String
deriving DecidableEq

/-- Evaluate an activation condition against an environment of resolved
launch-configuration values. -/
def evalCondition (c : LaunchConfigurationEquals) (env : String → String) : Bool :=
  env c.varName == c.expected

/-- A `ComposableNodeContainer` as instantiated by the source.
`wrapper_command` embeds the Python `prefix` keyword argument (the command
the container executable is wrapped in). -/
structure ComposableNodeContainer where
  name : String
  ns : String
  package : String
  executable : String
  composable_node_descriptions : List ComposableNode
  wrapper_command : String
  sigkill_timeout : String
  sigterm_timeout : String
  output : String
  condition : LaunchConfigurationEquals
deriving DecidableEq

/-- The resolved launch-configuration inputs read by `launch_setup`, plus the
host architecture string returned by `platform.machine()`. -/
structure Context where
  config : String
  resolution : String
  enable_mt : Bool
  enable_nsys : Bool
  nsys_profile_label : String
  nsys_profile_flags : String
  machine : String
deriving DecidableEq

/-- `build_profile_name` of the source:
`f"ros-type_adapt-{platform.machine()}{mt-suffix}-{config}-{resolution}-{int(IMAGE_HZ)}hz{label-suffix}"`. -/
def build_profile_name (machine label config : String) (enable_mt : Bool)
    (resolution : String) : String :=
  "ros-type_adapt-" ++ machine ++ (if enable_mt then "-mt" else "") ++ "-" ++ config
    ++ "-" ++ resolution ++ "-" ++ toString IMAGE_HZ_INT ++ "hz"
    ++ (if label = "" then "" else "-" ++ label)

/-- `container_prefix` of the source: the nsys wrapper invocation when
profiling is enabled, the empty string otherwise. -/
def container_wrapper_cmd (ctx : Context) : String :=
  if ctx.enable_nsys then
    "nsys profile " ++ ctx.nsys_profile_flags ++ " -o "
      ++ build_profile_name ctx.machine ctx.nsys_profile_label ctx.config
           ctx.enable_mt ctx.resolution
  else ""

/-- `cam2image_node` of the source, given the pixel dimensions looked up from
`RESOLUTIONS`. -/
def cam2image_node (w h : ℕ) : ComposableNode :=
  { package := "image_tools",
    plugin := "image_tools::Cam2Image",
    name := "cam2image",
    parameters := [("burger_mode", PVal.pbool true),
                   ("history", PVal.pstr "keep_last"),
                   ("frequency", PVal.pfloat IMAGE_HZ),
                   ("width", PVal.pint (w : ℤ)),
                   ("height", PVal.pint (h : ℤ))],
    remappings := [("/image", "/image_in")],
    extra_arguments := [("use_intra_process_comms", PVal.pbool true)] }

/-- `composite_node` of the source: the single fused Julia-set stage. -/
def composite_node : ComposableNode :=
  { package := "julia_set_example",
    plugin := "type_adapt_example::JuliasetNode",
    name := "juliaset_node",
    parameters := ("is_composite", PVal.pbool true) :: JULIASET_PARAMS,
    remappings := [("/image_out", "/composite/image_out")],
    extra_arguments := [] }

/-- The mapping stage appended first to `pipeline_nodes` in the source. -/
def map_node : ComposableNode :=
  { package := "julia_set_example",
    plugin := "type_adapt_example::MapNode",
    name := "map_node",
    parameters := JULIASET_PARAMS,
    remappings := [("/image_out", "/image_out0")],
    extra_arguments := [] }

/-- The iterative Julia-set stage appended for index `i` by the
`for i in range(1, MAX_ITERATION)` loop of the source. -/
def juliaset_stage_node (i : ℕ) : ComposableNode :=
  { package := "julia_set_example",
    plugin := "type_adapt_example::JuliasetNode",
    name := "juliaset_node" ++ natDecimal i,
    parameters := ("is_composite", PVal.pbool false) :: ("proc_id", PVal.pint (i : ℤ))
                    :: JULIASET_PARAMS,
    remappings := [("/image_in", "/image_out" ++ natDecimal (i - 1)),
                   ("/image_out", "/image_out" ++ natDecimal i)],
    extra_arguments := [] }

/-- The colorizing stage appended last in the source; `maxIter` is the
`MAX_ITERATION` constant (kept as a parameter so chain-length-generic
properties can be stated; the source value is `MAX_ITERATION = 50`). -/
def colorize_node (maxIter : ℕ) : ComposableNode :=
  { package := "julia_set_example",
    plugin := "type_adapt_example::ColorizeNode",
    name := "colorize_node",
    parameters := ("max_iterations", PVal.pfloat (maxIter : ℚ)) :: JULIASET_PARAMS,
    remappings := [("/image_in", "/image_out" ++ natDecimal (maxIter - 1)),
                   ("/image_out", "/pipeline/image_out")],
    extra_arguments := [] }

/-- `pipeline_nodes` of the source: starts with the capture node, appends the
mapping node, then one iterative stage per loop index `i ∈ range(1, maxIter)`
(that is, `i = 1 .. maxIter - 1`), then the colorizing node.  With
`maxIter = MAX_ITERATION` this is exactly the list the source builds. -/
def pipeline_nodes (maxIter : ℕ) (cam : ComposableNode) : List ComposableNode :=
  [cam, map_node] ++ (List.range' 1 (maxIter - 1)).map juliaset_stage_node
    ++ [colorize_node maxIter]

/-- `composite_container` of the source. -/
def composite_container (ctx : Context) (cam : ComposableNode) :
    ComposableNodeContainer :=
  { name := "container",
    ns := "",
    package := "rclcpp_components",
    executable := "component_container" ++ (if ctx.enable_mt then "_mt" else ""),
    composable_node_descriptions := [cam, composite_node],
    wrapper_command := container_wrapper_cmd ctx,
    sigkill_timeout := if ctx.enable_nsys then "500" else "5",
    sigterm_timeout := if ctx.enable_nsys then "500" else "5",
    output := "both",
    condition := { varName := "config", expected := "composite" } }

/-- `pipeline_container` of the source. -/
def pipeline_container (ctx : Context) (cam : ComposableNode) :
    ComposableNodeContainer :=
  { name := "pipeline_container",
    ns := "",
    package := "rclcpp_components",
    executable := "component_container" ++ (if ctx.enable_mt then "_mt" else ""),
    composable_node_descriptions := pipeline_nodes MAX_ITERATION cam,
    wrapper_command := container_wrapper_cmd ctx,
    sigkill_timeout := if ctx.enable_nsys then "500" else "5",
    sigterm_timeout := if ctx.enable_nsys then "500" else "5",
    output := "both",
    condition := { varName := "config", expected := "pipeline" } }

/-- `launch_setup` of the source.  The only fallible step is the
`RESOLUTIONS[resolution]` lookup (a Python `KeyError` on an unknown key,
raised while constructing `cam2image_node`, before anything is returned);
it is embedded as `Option`, `none` standing for the lookup-miss failure.
On success the source returns `[pipeline_container, composite_container]`. -/
def launch_setup (ctx : Context) : Option (List ComposableNodeContainer) :=
  match List.lookup ctx.resolution RESOLUTIONS with
  | none => none
  | some (w, h) =>
      some [pipeline_container ctx (cam2image_node w h),
            composite_container ctx (cam2image_node w h)]

/-- The physical channel a node publishes its `/image_out` topic on, read off
its remappings. -/
def outRoute (n : ComposableNode) : Option String :=
  List.lookup "/image_out" n.remappings

/-- The physical channel a node reads its `/image_in` topic from, read off
its remappings. -/
def inRoute (n : ComposableNode) : Option String :=
  List.lookup "/image_in" n.remappings

/-- All physical channel names appearing in a node's remappings. -/
def routeTargets (n : ComposableNode) : List String :=
  n.remappings.map Prod.snd

/-- The physical channel a node produces (publishes on): the `/image_out`
remapping for the Julia-set stages, the `/image` remapping for the capture
node (whose publish topic is `/image`). -/
def producedRoute (n : ComposableNode) : Option String :=
  match List.lookup "/image_out" n.remappings with
  | some r => some r
  | none => List.lookup "/image" n.remappings

/-- The segment of the profile name determined by threading flag, topology
mode and resolution key (everything strictly between the
machine identifier and the label suffix). -/
def profile_core (mt : Bool) (config res : String) : String :=
  (if mt then "-mt" else "") ++ "-" ++ config ++ "-" ++ res ++ "-" ++ "100" ++ "hz"

/-- The trailing label segment of the profile name: present only when the
label is non-empty. -/
def label_suffix (label : String) : String :=
  if label = "" then "" else "-" ++ label

/-! ## Helper lemmas: decimal rendering is injective -/

theorem digitChar_inj_lt : ∀ x < 10, ∀ y < 10, Nat.digitChar x = Nat.digitChar y → x = y := by
  decide

theorem map_digitChar_inj (l1 : List ℕ) : ∀ l2 : List ℕ, (∀ x ∈ l1, x < 10) →
    (∀ x ∈ l2, x < 10) → l1.map Nat.digitChar = l2.map Nat.digitChar → l1 = l2 := by
  induction l1 with
  | nil => intro l2 _ _ h; cases l2 <;> simp_all
  | cons a t ih =>
    intro l2 h1 h2 h
    cases l2 with
    | nil => simp at h
    | cons b t2 =>
      simp only [List.map_cons, List.cons.injEq] at h
      have hab := digitChar_inj_lt a (h1 a (by simp)) b (h2 b (by simp)) h.1
      have ht := ih t2 (fun x hx => h1 x (by simp [hx])) (fun x hx => h2 x (by simp [hx])) h.2
      simp [hab, ht]

theorem natDecimal_ne_zero_case {k : ℕ} (hk : k ≠ 0) (h : natDecimal k = natDecimal 0) :
    False := by
  rw [natDecimal, natDecimal, if_neg hk, if_pos rfl] at h
  have hd : (List.map Nat.digitChar (Nat.digits 10 k)).reverse = ['0'] := by
    have h2 := congrArg String.data h
    simpa using h2
  have hrev : (Nat.digits 10 k).reverse = [0] := by
    apply map_digitChar_inj
    · intro x hx
      exact Nat.digits_lt_base (by norm_num) (List.mem_reverse.mp hx)
    · intro x hx
      simp at hx
      omega
    · rw [List.map_reverse, hd]; rfl
  have hdig : Nat.digits 10 k = [0] := by
    rw [← List.reverse_reverse (Nat.digits 10 k), hrev]
    rfl
  have hofd := Nat.ofDigits_digits 10 k
  rw [hdig] at hofd
  simp [Nat.ofDigits] at hofd
  exact hk hofd.symm

theorem natDecimal_inj {m n : ℕ} (h : natDecimal m = natDecimal n) : m = n := by
  by_cases hm : m = 0 <;> by_cases hn : n = 0
  · omega
  · subst hm; exact absurd h.symm (fun h2 => natDecimal_ne_zero_case hn h2)
  · subst hn; exact absurd h (fun h2 => natDecimal_ne_zero_case hm h2)
  · rw [natDecimal, natDecimal, if_neg hm, if_neg hn] at h
    have h2 : ((Nat.digits 10 m).reverse).map Nat.digitChar
        = ((Nat.digits 10 n).reverse).map Nat.digitChar := by
      have := congrArg String.data h
      simpa using this
    have hrev := map_digitChar_inj _ _
      (fun x hx => Nat.digits_lt_base (by norm_num) (List.mem_reverse.mp hx))
      (fun x hx => Nat.digits_lt_base (by norm_num) (List.mem_reverse.mp hx)) h2
    have hdig : Nat.digits 10 m = Nat.digits 10 n := by
      rw [← List.reverse_reverse (Nat.digits 10 m), hrev, List.reverse_reverse]
    have hm2 := Nat.ofDigits_digits 10 m
    rw [hdig, Nat.ofDigits_digits] at hm2
    exact hm2.symm

/-! ## Helper lemmas: string surgery -/

theorem string_append_left_cancel {a b c : String} (h : a ++ b = a ++ c) : b = c := by
  apply String.ext
  have h2 := congrArg String.data h
  rw [String.data_append, String.data_append] at h2
  exact List.append_cancel_left h2

theorem string_append_right_cancel {a b c : String} (h : a ++ c = b ++ c) : a = b := by
  apply String.ext
  have h2 := congrArg String.data h
  rw [String.data_append, String.data_append] at h2
  exact List.append_cancel_right h2

theorem append_ne_of_ne_take {p q : List Char} (s t : List Char) (hl : p.length = q.length)
    (hne : p ≠ q) : p ++ s ≠ q ++ t := by
  intro h
  apply hne
  have h1 := congrArg (List.take p.length) h
  rw [List.take_left] at h1
  rw [hl, List.take_left] at h1
  exact h1

theorem image_out_route_inj {i j : ℕ}
    (h : "/image_out" ++ natDecimal i = "/image_out" ++ natDecimal j) : i = j :=
  natDecimal_inj (string_append_left_cancel h)

theorem image_in_ne_image_out (s : String) : "/image_in" ≠ "/image_out" ++ s := by
  intro h
  have h2 := congrArg String.data h
  rw [String.data_append] at h2
  have e1 : ("/image_in" : String).data
      = ("/image_i" : String).data ++ ("n" : String).data := by decide
  have e2 : ("/image_out" : String).data
      = ("/image_o" : String).data ++ ("ut" : String).data := by decide
  rw [e1, e2, List.append_assoc] at h2
  exact append_ne_of_ne_take _ _ (by decide) (by decide) h2

theorem pipeline_out_ne_image_out (s : String) : "/pipeline/image_out" ≠ "/image_out" ++ s := by
  intro h
  have h2 := congrArg String.data h
  rw [String.data_append] at h2
  have e1 : ("/pipeline/image_out" : String).data
      = ("/p" : String).data ++ ("ipeline/image_out" : String).data := by decide
  have e2 : ("/image_out" : String).data
      = ("/i" : String).data ++ ("mage_out" : String).data := by decide
  rw [e1, e2, List.append_assoc] at h2
  exact append_ne_of_ne_take _ _ (by decide) (by decide) h2

theorem IMAGE_HZ_INT_eq : IMAGE_HZ_INT = 100 := by
  norm_num [IMAGE_HZ_INT, IMAGE_HZ]

theorem toString_IMAGE_HZ_INT : toString IMAGE_HZ_INT = "100" := by
  rw [IMAGE_HZ_INT_eq]
  decide

theorem build_profile_name_eq (machine label config : String) (mt : Bool) (res : String) :
    build_profile_name machine label config mt res
      = (("ros-type_adapt-" ++ machine) ++ profile_core mt config res)
          ++ label_suffix label := by
  apply String.ext
  unfold build_profile_name profile_core label_suffix
  rw [toString_IMAGE_HZ_INT]
  simp [String.data_append, List.append_assoc]

theorem infix_append_left (l1 : List Char) {l l2 : List Char} (h2 : l <:+: l2) :
    l <:+: l1 ++ l2 := by
  obtain ⟨s, t, hst⟩ := h2
  exact ⟨l1 ++ s, t, by rw [← hst]; simp [List.append_assoc]⟩

theorem profile_core_inj : ∀ m1 m2 : Bool, ∀ c1 ∈ (["pipeline", "composite"] : List String),
    ∀ c2 ∈ (["pipeline", "composite"] : List String),
    ∀ r1 ∈ RESOLUTIONS.map Prod.fst, ∀ r2 ∈ RESOLUTIONS.map Prod.fst,
    profile_core m1 c1 r1 = profile_core m2 c2 r2 → m1 = m2 ∧ c1 = c2 ∧ r1 = r2 := by
  decide

/-! ## Helper lemmas: positional reading of the pipeline stage list -/

theorem range'_getElem?_eq (s n i : ℕ) :
    (List.range' s n)[i]? = if i < n then some (s + i) else none := by
  by_cases h : i < n
  · rw [if_pos h, List.getElem?_eq_getElem (by simpa using h)]
    simp [List.getElem_range']
  · rw [if_neg h, List.getElem?_eq_none]
    simpa using Nat.le_of_not_lt h

theorem pipeline_nodes_getElem? (N : ℕ) (cam : ComposableNode) (hN : 1 ≤ N) (k : ℕ) :
    (pipeline_nodes N cam)[k]? =
      if k = 0 then some cam
      else if k = 1 then some map_node
      else if k ≤ N then some (juliaset_stage_node (k - 1))
      else if k = N + 1 then some (colorize_node N)
      else none := by
  have hform : pipeline_nodes N cam
      = cam :: map_node ::
        ((List.range' 1 (N - 1)).map juliaset_stage_node ++ [colorize_node N]) := by
    simp [pipeline_nodes]
  rw [hform]
  match k with
  | 0 => simp
  | 1 => simp
  | (k + 2) =>
    rw [List.getElem?_cons_succ, List.getElem?_cons_succ]
    have hmidlen : ((List.range' 1 (N - 1)).map juliaset_stage_node).length = N - 1 := by
      simp
    by_cases hk : k < N - 1
    · rw [List.getElem?_append_left (by rw [hmidlen]; exact hk)]
      rw [List.getElem?_map, range'_getElem?_eq, if_pos hk]
      have h1 : ¬ (k + 2 = 0) := by omega
      have h2 : ¬ (k + 2 = 1) := by omega
      have h3 : k + 2 ≤ N := by omega
      rw [if_neg h1, if_neg h2, if_pos h3]
      have h4 : 1 + k = k + 2 - 1 := by omega
      simp [h4]
    · by_cases hk2 : k = N - 1
      · subst hk2
        rw [List.getElem?_append_right (by rw [hmidlen])]
        rw [hmidlen, Nat.sub_self]
        have h1 : ¬ (N - 1 + 2 = 0) := by omega
        have h2 : ¬ (N - 1 + 2 = 1) := by omega
        have h3 : ¬ (N - 1 + 2 ≤ N) := by omega
        have h4 : N - 1 + 2 = N + 1 := by omega
        rw [if_neg h1, if_neg h2, if_neg h3, if_pos h4]
        rfl
      · have hk3 : N - 1 < k := by omega
        rw [List.getElem?_append_right (by rw [hmidlen]; omega)]
        rw [hmidlen]
        have h1 : ¬ (k + 2 = 0) := by omega
        have h2 : ¬ (k + 2 = 1) := by omega
        have h3 : ¬ (k + 2 ≤ N) := by omega
        have h4 : ¬ (k + 2 = N + 1) := by omega
        rw [if_neg h1, if_neg h2, if_neg h3, if_neg h4]
        rw [List.getElem?_eq_none]
        simp
        omega

/-! ## Helper lemmas: route evaluations per stage kind -/

theorem producedRoute_cam (w h : ℕ) :
    producedRoute (cam2image_node w h) = some "/image_in" := rfl

theorem producedRoute_map : producedRoute map_node = some "/image_out0" := rfl

theorem producedRoute_stage (i : ℕ) :
    producedRoute (juliaset_stage_node i) = some ("/image_out" ++ natDecimal i) := rfl

theorem producedRoute_colorize (M : ℕ) :
    producedRoute (colorize_node M) = some "/pipeline/image_out" := rfl

theorem outRoute_map : outRoute map_node = some "/image_out0" := rfl

theorem outRoute_stage (i : ℕ) :
    outRoute (juliaset_stage_node i) = some ("/image_out" ++ natDecimal i) := rfl

theorem inRoute_stage (i : ℕ) :
    inRoute (juliaset_stage_node i) = some ("/image_out" ++ natDecimal (i - 1)) := rfl

theorem inRoute_colorize (M : ℕ) :
    inRoute (colorize_node M) = some ("/image_out" ++ natDecimal (M - 1)) := rfl

theorem image_out0_eq : ("/image_out0" : String) = "/image_out" ++ natDecimal 0 := by decide

/-- Every physical channel name in the remappings of the stage at position
`p` of the pipeline stage list is classified by `p`: the capture input
channel at position 0, the external output channel at position N + 1, or an
indexed inter-stage channel whose index is within one of `p`. -/
theorem routeTargets_classified (N w h : ℕ) (hN : 1 ≤ N) (p : ℕ) (nd : ComposableNode)
    (hp : (pipeline_nodes N (cam2image_node w h))[p]? = some nd)
    (r : String) (hr : r ∈ routeTargets nd) :
    (p = 0 ∧ r = "/image_in") ∨
    (p = N + 1 ∧ r = "/pipeline/image_out") ∨
    (1 ≤ p ∧ ∃ d, r = "/image_out" ++ natDecimal d ∧ p - 2 ≤ d ∧ d ≤ p - 1 ∧ d ≤ N - 1) := by
  rw [pipeline_nodes_getElem? N _ hN p] at hp
  split_ifs at hp with h0 h1 h2 h3
  · injection hp with hp2
    subst hp2
    left
    refine ⟨h0, ?_⟩
    simpa [routeTargets, cam2image_node] using hr
  · injection hp with hp2
    subst hp2
    right; right
    have hr2 : r = "/image_out0" := by simpa [routeTargets, map_node] using hr
    refine ⟨by omega, 0, ?_, by omega, by omega, by omega⟩
    rw [hr2, image_out0_eq]
  · injection hp with hp2
    subst hp2
    right; right
    have hr2 : r = "/image_out" ++ natDecimal (p - 1 - 1) ∨
        r = "/image_out" ++ natDecimal (p - 1) := by
      simpa [routeTargets, juliaset_stage_node] using hr
    rcases hr2 with hr2 | hr2
    · exact ⟨by omega, p - 1 - 1, hr2, by omega, by omega, by omega⟩
    · exact ⟨by omega, p - 1, hr2, by omega, by omega, by omega⟩
  · injection hp with hp2
    subst hp2
    have hr2 : r = "/image_out" ++ natDecimal (N - 1) ∨ r = "/pipeline/image_out" := by
      simpa [routeTargets, colorize_node] using hr
    rcases hr2 with hr2 | hr2
    · right; right
      exact ⟨by omega, N - 1, hr2, by omega, by omega, by omega⟩
    · right; left
      exact ⟨h3, hr2⟩

/-! ## Claim theorems -/

/-- C2: In pipeline mode the stage list has exactly N + 2 entries — one
capture stage, one mapping stage, N - 1 iterative stages and one colorizing
stage, in that order; with the shipped N = MAX_ITERATION = 50 the list has 52
entries, and with N = 1 it degenerates to capture, map, colorize with no
iterative stages. -/
theorem pipeline_stage_count (N : ℕ) (cam : ComposableNode) (hN : 1 ≤ N) :
    (pipeline_nodes N cam).length = N + 2 ∧
    pipeline_nodes N cam
      = cam :: map_node ::
          ((List.range' 1 (N - 1)).map juliaset_stage_node ++ [colorize_node N]) ∧
    ((List.range' 1 (N - 1)).map juliaset_stage_node).length = N - 1 ∧
    (∀ nd ∈ (List.range' 1 (N - 1)).map juliaset_stage_node,
      nd.plugin = "type_adapt_example::JuliasetNode") ∧
    pipeline_nodes 1 cam = [cam, map_node, colorize_node 1] ∧
    (pipeline_nodes MAX_ITERATION cam).length = 52 := by
  refine ⟨?_, by simp [pipeline_nodes], by simp, ?_, by simp [pipeline_nodes], ?_⟩
  · simp [pipeline_nodes]
    omega
  · intro nd hnd
    simp at hnd
    obtain ⟨i, _, rfl⟩ := hnd
    rfl
  · simp [pipeline_nodes, MAX_ITERATION]

/-- C2 witness at the shipped chain length N = 50. -/
theorem pipeline_stage_count_witness :
    (1 : ℕ) ≤ 50 ∧ (pipeline_nodes 50 (cam2image_node 1920 1080)).length = 50 + 2 :=
  ⟨by norm_num, (pipeline_stage_count 50 (cam2image_node 1920 1080) (by norm_num)).1⟩

/-- C3: for `config` equal to one of the two recognized topology modes,
exactly one of the two containers' activation conditions evaluates true;
for any other value both evaluate false. -/
theorem activation_exactly_one (ctx : Context) (cam : ComposableNode)
    (env : String → String) :
    ((env "config" = "pipeline" ∨ env "config" = "composite") →
      (evalCondition (pipeline_container ctx cam).condition env = true ∧
       evalCondition (composite_container ctx cam).condition env = false) ∨
      (evalCondition (pipeline_container ctx cam).condition env = false ∧
       evalCondition (composite_container ctx cam).condition env = true)) ∧
    (env "config" ≠ "pipeline" → env "config" ≠ "composite" →
      evalCondition (pipeline_container ctx cam).condition env = false ∧
      evalCondition (composite_container ctx cam).condition env = false) := by
  constructor
  · rintro (hc | hc)
    · left
      simp [evalCondition, pipeline_container, composite_container, hc]
    · right
      simp [evalCondition, pipeline_container, composite_container, hc]
  · intro h1 h2
    simp [evalCondition, pipeline_container, composite_container, h1, h2]

/-- C3 witness: with `config = "pipeline"` the pipeline container activates
and the composite container does not. -/
theorem activation_exactly_one_witness :
    (evalCondition
        (pipeline_container
          ⟨"pipeline", "1080p", false, false, "", "", "x86_64"⟩
          (cam2image_node 1920 1080)).condition (fun _ => "pipeline") = true ∧
     evalCondition
        (composite_container
          ⟨"pipeline", "1080p", false, false, "", "", "x86_64"⟩
          (cam2image_node 1920 1080)).condition (fun _ => "pipeline") = false) ∨
    (evalCondition
        (pipeline_container
          ⟨"pipeline", "1080p", false, false, "", "", "x86_64"⟩
          (cam2image_node 1920 1080)).condition (fun _ => "pipeline") = false ∧
     evalCondition
        (composite_container
          ⟨"pipeline", "1080p", false, false, "", "", "x86_64"⟩
          (cam2image_node 1920 1080)).condition (fun _ => "pipeline") = true) :=
  (activation_exactly_one
    ⟨"pipeline", "1080p", false, false, "", "", "x86_64"⟩
    (cam2image_node 1920 1080) (fun _ => "pipeline")).1 (Or.inl rfl)

/-- C5: in composite mode the stage list is exactly capture-then-composite
(2 entries, independent of any chain length), the composite stage carries
`is_composite = true` plus the shared Julia-set parameters, and its output
channel differs from the pipeline group's output channel. -/
theorem composite_group_shape (ctx : Context) (w h : ℕ)
    (hres : List.lookup ctx.resolution RESOLUTIONS = some (w, h)) :
    launch_setup ctx = some [pipeline_container ctx (cam2image_node w h),
                             composite_container ctx (cam2image_node w h)] ∧
    (composite_container ctx (cam2image_node w h)).composable_node_descriptions
      = [cam2image_node w h, composite_node] ∧
    (composite_container ctx (cam2image_node w h)).composable_node_descriptions.length
      = 2 ∧
    composite_node.parameters
      = ("is_composite", PVal.pbool true) :: JULIASET_PARAMS ∧
    outRoute composite_node = some "/composite/image_out" ∧
    outRoute (colorize_node MAX_ITERATION) = some "/pipeline/image_out" ∧
    ("/composite/image_out" : String) ≠ "/pipeline/image_out" := by
  refine ⟨?_, rfl, rfl, rfl, by decide, by decide, by decide⟩
  unfold launch_setup
  rw [hres]

/-- C5 witness at a concrete context. -/
theorem composite_group_shape_witness :
    launch_setup ⟨"composite", "1080p", false, false, "", "", "x86_64"⟩
      = some [pipeline_container ⟨"composite", "1080p", false, false, "", "", "x86_64"⟩
                (cam2image_node 1920 1080),
              composite_container ⟨"composite", "1080p", false, false, "", "", "x86_64"⟩
                (cam2image_node 1920 1080)] ∧
    (composite_container ⟨"composite", "1080p", false, false, "", "", "x86_64"⟩
        (cam2image_node 1920 1080)).composable_node_descriptions
      = [cam2image_node 1920 1080, composite_node] ∧
    (composite_container ⟨"composite", "1080p", false, false, "", "", "x86_64"⟩
        (cam2image_node 1920 1080)).composable_node_descriptions.length = 2 ∧
    composite_node.parameters
      = ("is_composite", PVal.pbool true) :: JULIASET_PARAMS ∧
    outRoute composite_node = some "/composite/image_out" ∧
    outRoute (colorize_node MAX_ITERATION) = some "/pipeline/image_out" ∧
    ("/composite/image_out" : String) ≠ "/pipeline/image_out" :=
  composite_group_shape ⟨"composite", "1080p", false, false, "", "", "x86_64"⟩
    1920 1080 (by decide)

/-- C8: for both process groups the wrapper command is the nsys invocation
built from the profile name and the profiling flags exactly when profiling is
enabled and the empty string otherwise, and both shutdown grace periods are
the long value (500) exactly when profiling is enabled and the short default
(5) otherwise. -/
theorem wrapper_and_grace_periods (ctx : Context) (l : List ComposableNodeContainer)
    (hl : launch_setup ctx = some l) (c : ComposableNodeContainer) (hc : c ∈ l) :
    c.wrapper_command
      = (if ctx.enable_nsys then
          "nsys profile " ++ ctx.nsys_profile_flags ++ " -o "
            ++ build_profile_name ctx.machine ctx.nsys_profile_label ctx.config
                 ctx.enable_mt ctx.resolution
         else "") ∧
    c.sigkill_timeout = (if ctx.enable_nsys then "500" else "5") ∧
    c.sigterm_timeout = (if ctx.enable_nsys then "500" else "5") := by
  unfold launch_setup at hl
  cases hres : List.lookup ctx.resolution RESOLUTIONS with
  | none => rw [hres] at hl; simp at hl
  | some wh =>
    obtain ⟨w, h⟩ := wh
    rw [hres] at hl
    simp only [Option.some.injEq] at hl
    subst hl
    simp only [List.mem_cons, List.not_mem_nil, or_false] at hc
    rcases hc with hc | hc <;> subst hc <;>
      exact ⟨rfl, rfl, rfl⟩

/-- C8 witness: profiling enabled at a concrete context yields the nsys
wrapper and the long grace periods on the pipeline container. -/
theorem wrapper_and_grace_periods_witness :
    (pipeline_container
        ⟨"pipeline", "720p", false, true, "", "--trace=osrt,nvtx,cuda", "x86_64"⟩
        (cam2image_node 1280 720)).wrapper_command
      = (if true then
          "nsys profile " ++ "--trace=osrt,nvtx,cuda" ++ " -o "
            ++ build_profile_name "x86_64" "" "pipeline" false "720p"
         else "") ∧
    (pipeline_container
        ⟨"pipeline", "720p", false, true, "", "--trace=osrt,nvtx,cuda", "x86_64"⟩
        (cam2image_node 1280 720)).sigkill_timeout = (if true then "500" else "5") ∧
    (pipeline_container
        ⟨"pipeline", "720p", false, true, "", "--trace=osrt,nvtx,cuda", "x86_64"⟩
        (cam2image_node 1280 720)).sigterm_timeout = (if true then "500" else "5") :=
  wrapper_and_grace_periods
    ⟨"pipeline", "720p", false, true, "", "--trace=osrt,nvtx,cuda", "x86_64"⟩
    _ rfl _ (by simp)

/-- C9: the resolution table maps "1080p" to (1920, 1080) and "4K" to
(3840, 2160); any key outside the table misses the lookup and makes
`launch_setup` fail without producing a result. -/
theorem resolution_lookup_spec (k : String) (hk : k ∉ RESOLUTIONS.map Prod.fst) :
    List.lookup "1080p" RESOLUTIONS = some (1920, 1080) ∧
    List.lookup "4K" RESOLUTIONS = some (3840, 2160) ∧
    List.lookup k RESOLUTIONS = none ∧
    ∀ ctx : Context, ctx.resolution = k → launch_setup ctx = none := by
  have hk2 : ¬(k = "16K" ∨ k = "8K" ∨ k = "4K" ∨ k = "1080p" ∨ k = "720p" ∨ k = "480p") := by
    simpa [RESOLUTIONS] using hk
  push_neg at hk2
  obtain ⟨h1, h2, h3, h4, h5, h6⟩ := hk2
  have hnone : List.lookup k RESOLUTIONS = none := by
    have b1 : (k == "16K") = false := beq_eq_false_iff_ne.mpr h1
    have b2 : (k == "8K") = false := beq_eq_false_iff_ne.mpr h2
    have b3 : (k == "4K") = false := beq_eq_false_iff_ne.mpr h3
    have b4 : (k == "1080p") = false := beq_eq_false_iff_ne.mpr h4
    have b5 : (k == "720p") = false := beq_eq_false_iff_ne.mpr h5
    have b6 : (k == "480p") = false := beq_eq_false_iff_ne.mpr h6
    simp [RESOLUTIONS, List.lookup, b1, b2, b3, b4, b5, b6]
  refine ⟨by decide, by decide, hnone, ?_⟩
  intro ctx hres
  unfold launch_setup
  rw [hres, hnone]

/-- C9 witness at the unknown key "999p". -/
theorem resolution_lookup_spec_witness :
    List.lookup "1080p" RESOLUTIONS = some (1920, 1080) ∧
    List.lookup "4K" RESOLUTIONS = some (3840, 2160) ∧
    List.lookup "999p" RESOLUTIONS = none ∧
    ∀ ctx : Context, ctx.resolution = "999p" → launch_setup ctx = none :=
  resolution_lookup_spec "999p" (by decide)

/-- C6: the profile name is the concatenation, in order, of the fixed
"ros-type_adapt-" prefix, the machine identifier, a "-mt" segment present iff
the threading flag is set (inside `profile_core`), the topology mode, the
resolution key, "100hz" (the image rate as integer hertz), and a "-label"
segment present iff the label is non-empty; for enable_mt = false,
config = "pipeline", resolution = "720p", label = "" the name is exactly the
machine part followed by "-pipeline-720p-100hz", hence contains the machine
tag, "pipeline", "720p" and "100hz", with no "-mt" and no label segment. -/
theorem profile_name_structure (machine : String) :
    (∀ label config mt res,
      build_profile_name machine label config mt res
        = (("ros-type_adapt-" ++ machine) ++ profile_core mt config res)
            ++ label_suffix label) ∧
    build_profile_name machine "" "pipeline" false "720p"
      = ("ros-type_adapt-" ++ machine) ++ "-pipeline-720p-100hz" ∧
    ("pipeline" : String).data
      <:+: (build_profile_name machine "" "pipeline" false "720p").data ∧
    ("720p" : String).data
      <:+: (build_profile_name machine "" "pipeline" false "720p").data ∧
    ("100hz" : String).data
      <:+: (build_profile_name machine "" "pipeline" false "720p").data ∧
    machine.data <:+: (build_profile_name machine "" "pipeline" false "720p").data ∧
    ¬ (("-mt" : String).data <:+: ("-pipeline-720p-100hz" : String).data) ∧
    label_suffix "" = "" := by
  have hcore : profile_core false "pipeline" "720p" = "-pipeline-720p-100hz" := by decide
  have hconc : build_profile_name machine "" "pipeline" false "720p"
      = ("ros-type_adapt-" ++ machine) ++ "-pipeline-720p-100hz" := by
    rw [build_profile_name_eq, hcore]
    apply String.ext
    simp [String.data_append, label_suffix]
  refine ⟨fun label config mt res => build_profile_name_eq machine label config mt res,
    hconc, ?_, ?_, ?_, ?_, by decide, rfl⟩
  · rw [hconc, String.data_append]
    exact infix_append_left _ (by decide)
  · rw [hconc, String.data_append]
    exact infix_append_left _ (by decide)
  · rw [hconc, String.data_append]
    exact infix_append_left _ (by decide)
  · exact ⟨("ros-type_adapt-" : String).data, ("-pipeline-720p-100hz" : String).data,
      by rw [hconc]; simp [String.data_append, List.append_assoc]⟩

/-- C7: the profile-name builder is injective in (threading flag, topology
mode, resolution key) for fixed machine and label, over the recognized
topology modes and the keys of the resolution table. -/
theorem build_profile_name_collision_free (machine label : String) (m1 m2 : Bool)
    (c1 c2 r1 r2 : String)
    (hc1 : c1 ∈ (["pipeline", "composite"] : List String))
    (hc2 : c2 ∈ (["pipeline", "composite"] : List String))
    (hr1 : r1 ∈ RESOLUTIONS.map Prod.fst)
    (hr2 : r2 ∈ RESOLUTIONS.map Prod.fst)
    (heq : build_profile_name machine label c1 m1 r1
            = build_profile_name machine label c2 m2 r2) :
    m1 = m2 ∧ c1 = c2 ∧ r1 = r2 := by
  rw [build_profile_name_eq, build_profile_name_eq] at heq
  have hcore : profile_core m1 c1 r1 = profile_core m2 c2 r2 :=
    string_append_left_cancel (string_append_right_cancel heq)
  exact profile_core_inj m1 m2 c1 hc1 c2 hc2 r1 hr1 r2 hr2 hcore

/-- C7 witness: the theorem applied at a concrete admissible input. -/
theorem build_profile_name_collision_free_witness :
    (false : Bool) = false ∧ ("pipeline" : String) = "pipeline" ∧
      ("720p" : String) = "720p" :=
  build_profile_name_collision_free "x86_64" "" false false "pipeline" "pipeline"
    "720p" "720p" (by decide) (by decide) (by decide) (by decide) rfl

/-- C1: for every chain length N ≥ 1 and every position k in [1, N], the
output route of the stage at position k (the mapping stage when k = 1,
iterative stage k - 1 otherwise) equals the input route of the stage at
position k + 1 (iterative stage k, or the colorizing stage when k = N), the
shared channel being `stage_(k-1)`; moreover two stages sharing any physical
channel name are necessarily adjacent, and the produced channel names across
the chain are pairwise distinct. -/
theorem pipeline_routes_chain (N w h : ℕ) (hN : 1 ≤ N) :
    (∀ k, 1 ≤ k → k ≤ N →
      ((pipeline_nodes N (cam2image_node w h))[k]?.bind outRoute
          = some ("/image_out" ++ natDecimal (k - 1)) ∧
       (pipeline_nodes N (cam2image_node w h))[k + 1]?.bind inRoute
          = some ("/image_out" ++ natDecimal (k - 1)))) ∧
    (∀ j k a b, (pipeline_nodes N (cam2image_node w h))[j]? = some a →
      (pipeline_nodes N (cam2image_node w h))[k]? = some b → j < k →
      (∃ r, r ∈ routeTargets a ∧ r ∈ routeTargets b) → k = j + 1) ∧
    ((pipeline_nodes N (cam2image_node w h)).filterMap producedRoute).Nodup := by
  refine ⟨?_, ?_, ?_⟩
  · intro k hk1 hk2
    rw [pipeline_nodes_getElem? N _ hN k, pipeline_nodes_getElem? N _ hN (k + 1)]
    have hk0 : ¬ (k = 0) := by omega
    have hk10 : ¬ (k + 1 = 0) := by omega
    have hk11 : ¬ (k + 1 = 1) := by omega
    rw [if_neg hk0]
    constructor
    · by_cases hk3 : k = 1
      · subst hk3
        rw [if_pos rfl]
        simp [outRoute_map, image_out0_eq]
      · rw [if_neg hk3, if_pos hk2]
        simp [outRoute_stage]
    · rw [if_neg hk10, if_neg hk11]
      by_cases hk4 : k + 1 ≤ N
      · rw [if_pos hk4]
        simp [inRoute_stage]
      · have hkN : k = N := by omega
        subst hkN
        have hsucc : k + 1 = k + 1 := rfl
        rw [if_neg hk4, if_pos rfl]
        simp [inRoute_colorize]
  · intro j k a b hja hkb hjk hshare
    obtain ⟨r, hra, hrb⟩ := hshare
    have HA := routeTargets_classified N w h hN j a hja r hra
    have HB := routeTargets_classified N w h hN k b hkb r hrb
    by_contra hne
    have hge : j + 2 ≤ k := by omega
    rcases HA with ⟨hj0, hrA⟩ | ⟨hjN, hrA⟩ | ⟨hj1, dA, hrA, hdA1, hdA2, hdA3⟩ <;>
      rcases HB with ⟨hk0, hrB⟩ | ⟨hkN, hrB⟩ | ⟨hk1, dB, hrB, hdB1, hdB2, hdB3⟩
    · omega
    · rw [hrA] at hrB
      exact absurd hrB (by decide)
    · rw [hrA] at hrB
      exact image_in_ne_image_out _ hrB
    · omega
    · omega
    · rw [hrA] at hrB
      exact pipeline_out_ne_image_out _ hrB
    · omega
    · rw [hrB] at hrA
      exact pipeline_out_ne_image_out _ hrA
    · have hd : dA = dB := image_out_route_inj (hrA.symm.trans hrB)
      omega
  · have hmid : ∀ L : List ℕ, (L.map juliaset_stage_node).filterMap producedRoute
        = L.map (fun i => "/image_out" ++ natDecimal i) := by
      intro L
      induction L with
      | nil => rfl
      | cons a t ih => simp [List.filterMap_cons, producedRoute_stage, ih]
    have hform : pipeline_nodes N (cam2image_node w h)
        = cam2image_node w h :: map_node ::
            ((List.range' 1 (N - 1)).map juliaset_stage_node ++ [colorize_node N]) := by
      simp [pipeline_nodes]
    rw [hform]
    simp only [List.filterMap_cons, List.filterMap_append, producedRoute_cam,
      producedRoute_map, producedRoute_colorize, hmid, List.filterMap_nil]
    refine List.nodup_cons.mpr ⟨?_, List.nodup_cons.mpr ⟨?_, ?_⟩⟩
    · intro hmem
      simp only [List.mem_cons, List.mem_append, List.mem_map,
        List.mem_singleton] at hmem
      rcases hmem with hmem | ⟨i, _, hi⟩ | hmem
      · exact absurd hmem (by decide)
      · exact image_in_ne_image_out _ hi.symm
      · exact absurd hmem (by decide)
    · intro hmem
      simp only [List.mem_append, List.mem_map, List.mem_singleton] at hmem
      rcases hmem with ⟨i, hi1, hi2⟩ | hmem
      · have hi0 : i = 0 := image_out_route_inj (hi2.trans image_out0_eq)
        have hibound : 1 ≤ i := by
          simp [List.mem_range'] at hi1
          omega
        omega
      · exact absurd hmem (by decide)
    · refine List.Nodup.append ?_ (List.nodup_singleton _) ?_
      · exact List.Nodup.map (fun x y hxy => image_out_route_inj hxy)
          (List.nodup_range' 1 (N - 1) 1 (by norm_num))
      · intro x hx1 hx2
        simp only [List.mem_map] at hx1
        obtain ⟨i, _, hi⟩ := hx1
        simp only [List.mem_singleton] at hx2
        rw [hx2] at hi
        exact pipeline_out_ne_image_out _ hi.symm

/-- C1 witness at the shipped chain length N = 50 and resolution 1080p,
checking the mapping-to-stage-1 link. -/
theorem pipeline_routes_chain_witness :
    (pipeline_nodes 50 (cam2image_node 1920 1080))[1]?.bind outRoute
        = some ("/image_out" ++ natDecimal 0) ∧
    (pipeline_nodes 50 (cam2image_node 1920 1080))[1 + 1]?.bind inRoute
        = some ("/image_out" ++ natDecimal 0) := by
  have hw := (pipeline_routes_chain 50 1920 1080 (by norm_num)).1 1 (by norm_num)
    (by norm_num)
  exact ⟨hw.1, hw.2⟩

/-- C4: each iterative stage i (1 ≤ i ≤ N - 1) occupies position i + 1 of the
pipeline stage list, its instance name "juliaset_node" followed by the decimal
index determines i uniquely (the naming is injective, the index suffix never
reused), and it carries is_composite = false and proc_id = i plus the shared
Julia-set parameters, with input routed from the stage_(i-1) channel and
output routed to the stage_i channel. -/
theorem iterative_stage_identity (N i : ℕ) (cam : ComposableNode) (hN : 1 ≤ N)
    (hi1 : 1 ≤ i) (hi2 : i ≤ N - 1) :
    (pipeline_nodes N cam)[i + 1]? = some (juliaset_stage_node i) ∧
    (∀ j k : ℕ, (juliaset_stage_node j).name = (juliaset_stage_node k).name → j = k) ∧
    (juliaset_stage_node i).name = "juliaset_node" ++ natDecimal i ∧
    (juliaset_stage_node i).parameters
      = ("is_composite", PVal.pbool false) :: ("proc_id", PVal.pint (i : ℤ))
          :: JULIASET_PARAMS ∧
    inRoute (juliaset_stage_node i) = some ("/image_out" ++ natDecimal (i - 1)) ∧
    outRoute (juliaset_stage_node i) = some ("/image_out" ++ natDecimal i) := by
  refine ⟨?_, ?_, rfl, rfl, inRoute_stage i, outRoute_stage i⟩
  · rw [pipeline_nodes_getElem? N cam hN (i + 1)]
    have h1 : ¬ (i + 1 = 0) := by omega
    have h2 : ¬ (i + 1 = 1) := by omega
    have h3 : i + 1 ≤ N := by omega
    rw [if_neg h1, if_neg h2, if_pos h3]
    simp
  · intro j k hjk
    exact natDecimal_inj (string_append_left_cancel hjk)

/-- C4 witness at the shipped chain length with i = 1. -/
theorem iterative_stage_identity_witness :
    (pipeline_nodes 50 (cam2image_node 1920 1080))[1 + 1]?
        = some (juliaset_stage_node 1) ∧
    inRoute (juliaset_stage_node 1) = some ("/image_out" ++ natDecimal 0) ∧
    outRoute (juliaset_stage_node 1) = some ("/image_out" ++ natDecimal 1) := by
  have h := iterative_stage_identity 50 1 (cam2image_node 1920 1080)
    (by norm_num) (by norm_num) (by norm_num)
  exact ⟨h.1, h.2.2.2.2.1, h.2.2.2.2.2⟩

/-- C10: the colorizing stage's parameter list carries the key
`max_iterations` twice — once as the explicit leading entry, once at the end
of the shared `JULIASET_PARAMS` — and both occurrences carry
`float(MAX_ITERATION) = 50.0`, so the effective value is 50.0 under either
first-wins or last-wins override order. -/
theorem colorize_max_iterations_consistent :
    (((colorize_node MAX_ITERATION).parameters.filter
        (fun p => p.1 == "max_iterations")).map Prod.snd)
      = [PVal.pfloat 50, PVal.pfloat 50] ∧
    List.lookup "max_iterations" (colorize_node MAX_ITERATION).parameters
      = some (PVal.pfloat 50) ∧
    List.lookup "max_iterations" ((colorize_node MAX_ITERATION).parameters.reverse)
      = some (PVal.pfloat 50) := by
  refine ⟨?_, ?_, ?_⟩ <;> decide

end JuliaSetLaunch
